import Mathlib

/-!
# Verification of the `model_db` persistence core

A shallow embedding of `src/db/cruds.py` and `src/db/database.py` of the
`ml-system-design` repository (the `model_db` metadata registry for
machine-learning experiment tracking), together with proofs of the
specified properties of its repository operations.

Modelling choices:
* The SQLAlchemy session together with the three tables is modelled as a
  `DB` record of three lists (persisted insertion order); `db.add(data)`
  appends to the corresponding list.
* `db.commit()` / `db.refresh(data)` affect durability only, not the
  session-visible contents, so the `commit` flag is carried (faithful to
  the Python signatures) but does not change the modelled state.
* `str(uuid.uuid4())[:6]` is a random fresh identifier; each creation
  operation receives the generated identifier as an explicit `newId`
  argument supplied by the Identity Generator.
* JSON column values are opaque to this layer (they are only stored and
  copied), modelled by a small `JsonValue` type; a Python `dict` is an
  association list with Python's assignment semantics (`d[k] = v` updates
  the existing entry in place, else appends).
* Python code that dereferences an attribute of `None` (an absent query
  result) raises; such fallible operations return `Except DbError`.
* `created_datetime` columns are `server_default=current_timestamp()`:
  they are written by the storage engine and never read or written by any
  operation of this layer, so they are omitted from the records.
-/

namespace ModelDB

/-- A scalar JSON value stored in a `JSON` column.  The repository
operations never inspect values, they only store and copy them. -/
inductive JsonValue where
  | str : String → JsonValue
  | num : Int → JsonValue
  | bool : Bool → JsonValue
deriving DecidableEq

/-- A Python `dict` held in a `JSON` column: an association list of
string keys to values, in insertion order. -/
abbrev JsonMap := List (String × JsonValue)

/-- Python dict assignment `d[k] = v`: if the key is present the entry is
updated in place, otherwise the pair is appended at the end. -/
def dictUpdate (d : JsonMap) (k : String) (v : JsonValue) : JsonMap :=
  if d.any (fun kv => kv.1 == k) then
    d.map (fun kv => if kv.1 == k then (k, v) else kv)
  else
    d ++ [(k, v)]

/-- The update loop `for k, v in upd.items(): d[k] = v` of
`update_experiment_evaluation` / `update_experiment_artifact_file_paths`. -/
def dictMerge (d : JsonMap) (upd : JsonMap) : JsonMap :=
  upd.foldl (fun acc kv => dictUpdate acc kv.1 kv.2) d

/-- Key lookup in a modelled dict (first entry with the key). -/
def dictLookup (d : JsonMap) (k : String) : Option JsonValue :=
  (d.find? (fun kv => kv.1 == k)).map (fun kv => kv.2)

/-- Row of the `projects` table (`models.py`, class `Project`). -/
structure Project where
  project_id : String
  project_name : String
  description : Option String
deriving DecidableEq

/-- Row of the `models` table (`models.py`, class `Model`). -/
structure Model where
  model_id : String
  project_id : String
  model_name : String
  description : Option String
deriving DecidableEq

/-- Row of the `experiments` table (`models.py`, class `Experiment`). -/
structure Experiment where
  experiment_id : String
  model_id : String
  model_version_id : String
  parameters : Option JsonMap
  training_dataset : Option String
  validation_dataset : Option String
  test_dataset : Option String
  evaluations : Option JsonMap
  artifact_file_paths : Option JsonMap
deriving DecidableEq

/-- The session-visible store: the three tables in insertion order. -/
structure DB where
  projects : List Project
  models : List Model
  experiments : List Experiment
deriving DecidableEq

/-- An error escaping a repository operation: dereferencing an absent
query result (Python raises on `None.attr`; the spec calls this
Not-Found). -/
inductive DbError where
  | notFound
deriving DecidableEq

/-- Embeds `select_project_all` (cruds.py): all rows of `projects`. -/
def select_project_all (db : DB) : List Project :=
  db.projects

/-- Embeds `select_project_by_id` (cruds.py): `.filter(project_id ==).first()`. -/
def select_project_by_id (db : DB) (project_id : String) : Option Project :=
  (db.projects.filter (fun p => p.project_id == project_id)).head?

/-- Embeds `select_project_by_name` (cruds.py): `.filter(project_name ==).first()`. -/
def select_project_by_name (db : DB) (project_name : String) : Option Project :=
  (db.projects.filter (fun p => p.project_name == project_name)).head?

/-- Embeds `add_project` (cruds.py): if a project with this name exists return
it, else insert a row with the freshly generated identifier `newId`. -/
def add_project (db : DB) (newId : String) (project_name : String)
    (description : Option String) (commit : Bool) : Project × DB :=
  match select_project_by_name db project_name with
  | some p => (p, db)
  | none =>
      let data : Project :=
        { project_id := newId, project_name := project_name, description := description }
      (data, { db with projects := db.projects ++ [data] })

/-- Embeds `select_model_all` (cruds.py). -/
def select_model_all (db : DB) : List Model :=
  db.models

/-- Embeds `select_model_by_id` (cruds.py). -/
def select_model_by_id (db : DB) (model_id : String) : Option Model :=
  (db.models.filter (fun m => m.model_id == model_id)).head?

/-- Embeds `select_model_by_project_id` (cruds.py): all models of a project. -/
def select_model_by_project_id (db : DB) (project_id : String) : List Model :=
  db.models.filter (fun m => m.project_id == project_id)

/-- Embeds `select_model_by_project_name` (cruds.py): resolves the project by
name, then filters models by `project.project_id`.  When no project has
the name, the Python code dereferences `None.project_id` and raises. -/
def select_model_by_project_name (db : DB) (project_name : String) :
    Except DbError (List Model) :=
  match select_project_by_name db project_name with
  | none => Except.error DbError.notFound
  | some project =>
      Except.ok (db.models.filter (fun m => m.project_id == project.project_id))

/-- Embeds `select_model_by_name` (cruds.py): matches across all projects. -/
def select_model_by_name (db : DB) (model_name : String) : List Model :=
  db.models.filter (fun m => m.model_name == model_name)

/-- Embeds `add_model` (cruds.py): scans the models of `project_id`; the first
with this `model_name` is returned unchanged, otherwise a row with the
freshly generated identifier `newId` is inserted. -/
def add_model (db : DB) (newId : String) (project_id : String) (model_name : String)
    (description : Option String) (commit : Bool) : Model × DB :=
  let models_in_project := select_model_by_project_id db project_id
  match models_in_project.find? (fun m => m.model_name == model_name) with
  | some m => (m, db)
  | none =>
      let data : Model :=
        { model_id := newId, project_id := project_id,
          model_name := model_name, description := description }
      (data, { db with models := db.models ++ [data] })

/-- Embeds `select_experiment_all` (cruds.py). -/
def select_experiment_all (db : DB) : List Experiment :=
  db.experiments

/-- Embeds `select_experiment_by_id` (cruds.py). -/
def select_experiment_by_id (db : DB) (experiment_id : String) : Option Experiment :=
  (db.experiments.filter (fun e => e.experiment_id == experiment_id)).head?

/-- Embeds `select_experiment_by_model_version_id` (cruds.py): first match only. -/
def select_experiment_by_model_version_id (db : DB) (model_version_id : String) :
    Option Experiment :=
  (db.experiments.filter (fun e => e.model_version_id == model_version_id)).head?

/-- Embeds `select_experiment_by_model_id` (cruds.py). -/
def select_experiment_by_model_id (db : DB) (model_id : String) : List Experiment :=
  db.experiments.filter (fun e => e.model_id == model_id)

/-- Embeds `select_experiment_by_project_id` (cruds.py):
`query(Experiment, Model).filter(Model.project_id == project_id)
.filter(Experiment.model_id == Model.model_id).all()` — the cross
product of the two tables filtered by both conditions. -/
def select_experiment_by_project_id (db : DB) (project_id : String) :
    List (Experiment × Model) :=
  (db.experiments.flatMap (fun e => db.models.map (fun m => (e, m)))).filter
    (fun em => em.2.project_id == project_id && em.1.model_id == em.2.model_id)

/-- Embeds `add_experiment` (cruds.py): unconditionally inserts a row with the
freshly generated identifier `newId`; no idempotency lookup. -/
def add_experiment (db : DB) (newId : String) (model_version_id : String)
    (model_id : String) (parameters : Option JsonMap)
    (training_dataset : Option String) (validation_dataset : Option String)
    (test_dataset : Option String) (evaluations : Option JsonMap)
    (artifact_file_paths : Option JsonMap) (commit : Bool) : Experiment × DB :=
  let data : Experiment :=
    { experiment_id := newId, model_id := model_id,
      model_version_id := model_version_id, parameters := parameters,
      training_dataset := training_dataset, validation_dataset := validation_dataset,
      test_dataset := test_dataset, evaluations := evaluations,
      artifact_file_paths := artifact_file_paths }
  (data, { db with experiments := db.experiments ++ [data] })

/-- Mutating the ORM object returned by `select_experiment_by_id` in
place updates the first row of the table with that identifier. -/
def updateFirstExperiment : List Experiment → String → Experiment → List Experiment
  | [], _, _ => []
  | e :: rest, experiment_id, data =>
      if e.experiment_id == experiment_id then data :: rest
      else e :: updateFirstExperiment rest experiment_id data

/-- Embeds `update_experiment_evaluation` (cruds.py): fetches the experiment
(dereferencing `None` raises when absent, with the session untouched);
if its `evaluations` is `None` it is replaced wholesale, else merged
key by key; the updated row is committed. -/
def update_experiment_evaluation (db : DB) (experiment_id : String)
    (evaluations : JsonMap) : Except DbError Experiment × DB :=
  match select_experiment_by_id db experiment_id with
  | none => (Except.error DbError.notFound, db)
  | some data =>
      let newEvaluations :=
        match data.evaluations with
        | none => evaluations
        | some cur => dictMerge cur evaluations
      let data2 := { data with evaluations := some newEvaluations }
      (Except.ok data2,
        { db with experiments := updateFirstExperiment db.experiments experiment_id data2 })

/-- Embeds `update_experiment_artifact_file_paths` (cruds.py): identical to
`update_experiment_evaluation`, applied to `artifact_file_paths`. -/
def update_experiment_artifact_file_paths (db : DB) (experiment_id : String)
    (artifact_file_paths : JsonMap) : Except DbError Experiment × DB :=
  match select_experiment_by_id db experiment_id with
  | none => (Except.error DbError.notFound, db)
  | some data =>
      let newPaths :=
        match data.artifact_file_paths with
        | none => artifact_file_paths
        | some cur => dictMerge cur artifact_file_paths
      let data2 := { data with artifact_file_paths := some newPaths }
      (Except.ok data2,
        { db with experiments := updateFirstExperiment db.experiments experiment_id data2 })

/-- Observable session-lifecycle events of a Unit-of-Work scope
(`database.py`). -/
inductive SessionEvent where
  | rollback
  | close
deriving DecidableEq

/-- Embeds `get_db` (database.py): the dependency-injection generator
`db = SessionLocal(); try: yield db; except: db.rollback(); raise;
finally: db.close()`.  The body's outcome is `body`; the result pairs the
propagated outcome with the session events the scope performed. -/
def get_db {ε α : Type} (body : Except ε α) : Except ε α × List SessionEvent :=
  match body with
  | Except.ok a => (Except.ok a, [SessionEvent.close])
  | Except.error e => (Except.error e, [SessionEvent.rollback, SessionEvent.close])

/-- Embeds `get_context_db` (database.py): the `@contextmanager` block-scoped
variant, with a body identical to `get_db`. -/
def get_context_db {ε α : Type} (body : Except ε α) : Except ε α × List SessionEvent :=
  match body with
  | Except.ok a => (Except.ok a, [SessionEvent.close])
  | Except.error e => (Except.error e, [SessionEvent.rollback, SessionEvent.close])

/-! ## Shared facts about the lookup helpers -/

/-- Embeds `select_project_by_name` misses exactly when no project has the name. -/
theorem select_project_by_name_eq_none_iff (db : DB) (project_name : String) :
    select_project_by_name db project_name = none ↔
      ∀ p ∈ db.projects, p.project_name ≠ project_name := by
  simp [select_project_by_name, List.head?_eq_none_iff, List.filter_eq_nil_iff]

/-- A project returned by `select_project_by_name` is a row with that name. -/
theorem select_project_by_name_mem (db : DB) (project_name : String) (p : Project)
    (h : select_project_by_name db project_name = some p) :
    p ∈ db.projects ∧ p.project_name = project_name := by
  simp only [select_project_by_name] at h
  have hmem : p ∈ db.projects.filter (fun q => q.project_name == project_name) :=
    List.mem_of_mem_head? (by simp [h])
  have := List.of_mem_filter hmem
  exact ⟨List.mem_of_mem_filter hmem, by simpa using this⟩

/-- Embeds `select_experiment_by_id` misses exactly when no experiment has the id. -/
theorem select_experiment_by_id_eq_none_iff (db : DB) (experiment_id : String) :
    select_experiment_by_id db experiment_id = none ↔
      ∀ e ∈ db.experiments, e.experiment_id ≠ experiment_id := by
  simp [select_experiment_by_id, List.head?_eq_none_iff, List.filter_eq_nil_iff]

/-! ## C1: add_project is idempotent by project name -/

/-- C1: `add_project` is idempotent by `project_name`: when a project with
the name exists the call returns it and leaves the store unchanged;
otherwise it inserts exactly one new row carrying the generated identifier
and that name, and returns it.  Calling it twice with the same name
returns the same project both times and, starting from a store with at
most one row of that name, leaves exactly one row with that name. -/
theorem C1_add_project_idempotent_by_name (db : DB) (id1 id2 project_name : String)
    (d1 d2 : Option String) (c1 c2 : Bool) :
    (∀ p, select_project_by_name db project_name = some p →
        add_project db id1 project_name d1 c1 = (p, db)) ∧
    (select_project_by_name db project_name = none →
        add_project db id1 project_name d1 c1 =
          (⟨id1, project_name, d1⟩,
            { db with projects := db.projects ++ [⟨id1, project_name, d1⟩] })) ∧
    (add_project (add_project db id1 project_name d1 c1).2 id2 project_name d2 c2).1
        = (add_project db id1 project_name d1 c1).1 ∧
    (db.projects.countP (fun p => p.project_name == project_name) ≤ 1 →
        ((add_project (add_project db id1 project_name d1 c1).2 id2
            project_name d2 c2).2.projects.countP
          (fun p => p.project_name == project_name)) = 1) := by
  refine ⟨?_, ?_, ?_, ?_⟩
  · intro p hp
    simp [add_project, hp]
  · intro h
    simp [add_project, h]
  · rcases hsel : select_project_by_name db project_name with _ | p
    · have hnil : db.projects.filter (fun q => q.project_name == project_name) = [] := by
        have h2 := hsel
        simp only [select_project_by_name] at h2
        exact List.head?_eq_none_iff.mp h2
      have hsel2 : select_project_by_name
          { db with projects := db.projects ++ [⟨id1, project_name, d1⟩] } project_name
          = some ⟨id1, project_name, d1⟩ := by
        simp [select_project_by_name, List.filter_append, hnil]
      simp [add_project, hsel, hsel2]
    · simp [add_project, hsel]
  · intro hle
    rcases hsel : select_project_by_name db project_name with _ | p
    · have hnil : db.projects.filter (fun q => q.project_name == project_name) = [] := by
        have h2 := hsel
        simp only [select_project_by_name] at h2
        exact List.head?_eq_none_iff.mp h2
      have hsel2 : select_project_by_name
          { db with projects := db.projects ++ [⟨id1, project_name, d1⟩] } project_name
          = some ⟨id1, project_name, d1⟩ := by
        simp [select_project_by_name, List.filter_append, hnil]
      have hcnt : db.projects.countP (fun p => p.project_name == project_name) = 0 := by
        simp [List.countP_eq_length_filter, hnil]
      simp [add_project, hsel, hsel2, List.countP_append, hcnt]
    · have hpos : 1 ≤ db.projects.countP (fun q => q.project_name == project_name) := by
        obtain ⟨hmem, hname⟩ := select_project_by_name_mem db project_name p hsel
        have : 0 < db.projects.countP (fun q => q.project_name == project_name) := by
          apply List.countP_pos_iff.mpr
          exact ⟨p, hmem, by simp [hname]⟩
        omega
      have heq : db.projects.countP (fun q => q.project_name == project_name) = 1 := by omega
      simp [add_project, hsel, heq]

/-- Concrete instantiation of C1: on a store holding one project named
`proj`, a second create returns that row and changes nothing; starting
from the empty store, two creates leave exactly one row named `proj`. -/
theorem C1_witness :
    add_project { projects := [⟨"aaaaaa", "proj", none⟩], models := [], experiments := [] }
        "cccccc" "proj" none true =
      (⟨"aaaaaa", "proj", none⟩,
        { projects := [⟨"aaaaaa", "proj", none⟩], models := [], experiments := [] }) ∧
    (add_project (add_project { projects := [], models := [], experiments := [] }
          "aaaaaa" "proj" none true).2 "cccccc" "proj" none true).2.projects.countP
        (fun p => p.project_name == "proj") = 1 := by
  constructor
  · exact (C1_add_project_idempotent_by_name
      { projects := [⟨"aaaaaa", "proj", none⟩], models := [], experiments := [] }
      "cccccc" "dddddd" "proj" none none true true).1 ⟨"aaaaaa", "proj", none⟩ (by decide)
  · exact (C1_add_project_idempotent_by_name
      { projects := [], models := [], experiments := [] }
      "aaaaaa" "cccccc" "proj" none none true true).2.2.2 (by decide)

/-! ## C2: add_model is idempotent by (project_id, model_name) -/

/-- The model returned by `add_model` always carries the requested
`project_id` (found among that project's models, or freshly built). -/
theorem add_model_fst_project_id (db : DB) (newId pid model_name : String)
    (d : Option String) (c : Bool) :
    (add_model db newId pid model_name d c).1.project_id = pid := by
  simp only [add_model, select_model_by_project_id]
  rcases hf : (db.models.filter (fun m => m.project_id == pid)).find?
      (fun m => m.model_name == model_name) with _ | m
  · simp [hf]
  · have hmem := List.mem_of_find?_eq_some hf
    have hm := List.of_mem_filter hmem
    simp only [hf]
    simpa using hm

/-- Reduction of `add_model` when a model of the project has the name. -/
theorem add_model_found (db : DB) (newId pid model_name : String) (d : Option String)
    (c : Bool) (m : Model)
    (h : (select_model_by_project_id db pid).find?
        (fun q => q.model_name == model_name) = some m) :
    add_model db newId pid model_name d c = (m, db) := by
  simp only [add_model]
  rw [h]

/-- Reduction of `add_model` when no model of the project has the name. -/
theorem add_model_not_found (db : DB) (newId pid model_name : String) (d : Option String)
    (c : Bool)
    (h : (select_model_by_project_id db pid).find?
        (fun q => q.model_name == model_name) = none) :
    add_model db newId pid model_name d c =
      (⟨newId, pid, model_name, d⟩,
        { db with models := db.models ++ [⟨newId, pid, model_name, d⟩] }) := by
  simp only [add_model]
  rw [h]

/-- C2: `add_model` is idempotent by the pair `(project_id, model_name)`:
if some model under `project_id` has the name, that model is returned and
nothing is inserted; otherwise a fresh row is appended.  Repeating the
call changes nothing.  The check is scoped to the one project: with the
same `model_name` but a different `project_id` (fresh for that name) a
distinct row is inserted. -/
theorem C2_add_model_idempotent_by_project_and_name (db : DB)
    (id1 id2 pid pid2 model_name : String) (d1 d2 : Option String) (c1 c2 : Bool) :
    (∀ m, (select_model_by_project_id db pid).find?
          (fun q => q.model_name == model_name) = some m →
        add_model db id1 pid model_name d1 c1 = (m, db)) ∧
    ((select_model_by_project_id db pid).find?
          (fun q => q.model_name == model_name) = none →
        add_model db id1 pid model_name d1 c1 =
          (⟨id1, pid, model_name, d1⟩,
            { db with models := db.models ++ [⟨id1, pid, model_name, d1⟩] })) ∧
    (add_model (add_model db id1 pid model_name d1 c1).2 id2 pid model_name d2 c2
        = add_model db id1 pid model_name d1 c1) ∧
    ((∀ m ∈ db.models, m.project_id = pid2 → m.model_name ≠ model_name) → pid2 ≠ pid →
        add_model (add_model db id1 pid model_name d1 c1).2 id2 pid2 model_name d2 c2 =
          (⟨id2, pid2, model_name, d2⟩,
            { (add_model db id1 pid model_name d1 c1).2 with
                models := (add_model db id1 pid model_name d1 c1).2.models ++
                  [⟨id2, pid2, model_name, d2⟩] }) ∧
        (⟨id2, pid2, model_name, d2⟩ : Model) ≠ (add_model db id1 pid model_name d1 c1).1) := by
  refine ⟨?_, ?_, ?_, ?_⟩
  · intro m hm
    exact add_model_found db id1 pid model_name d1 c1 m hm
  · intro h
    exact add_model_not_found db id1 pid model_name d1 c1 h
  · rcases hf : (select_model_by_project_id db pid).find?
        (fun q => q.model_name == model_name) with _ | m
    · rw [add_model_not_found db id1 pid model_name d1 c1 hf]
      have hf2 : (select_model_by_project_id
          { db with models := db.models ++ [⟨id1, pid, model_name, d1⟩] } pid).find?
            (fun q => q.model_name == model_name) = some ⟨id1, pid, model_name, d1⟩ := by
        simp only [select_model_by_project_id] at hf ⊢
        rw [List.filter_append, List.find?_append, hf]
        simp
      exact add_model_found _ id2 pid model_name d2 c2 _ hf2
    · rw [add_model_found db id1 pid model_name d1 c1 m hf]
      exact add_model_found db id2 pid model_name d2 c2 m hf
  · intro h1 hne
    have hall : ∀ m ∈ (add_model db id1 pid model_name d1 c1).2.models,
        m.project_id = pid2 → m.model_name ≠ model_name := by
      intro m hm hp
      rcases hf : (select_model_by_project_id db pid).find?
          (fun q => q.model_name == model_name) with _ | m0
      · rw [add_model_not_found db id1 pid model_name d1 c1 hf] at hm
        simp only [List.mem_append, List.mem_singleton] at hm
        rcases hm with hm | hm
        · exact h1 m hm hp
        · subst hm
          simp at hp
          exact absurd hp.symm hne
      · rw [add_model_found db id1 pid model_name d1 c1 m0 hf] at hm
        exact h1 m hm hp
    have hf2 : (select_model_by_project_id (add_model db id1 pid model_name d1 c1).2
        pid2).find? (fun q => q.model_name == model_name) = none := by
      apply List.find?_eq_none.mpr
      intro x hx
      have hx1 := List.of_mem_filter hx
      have hx2 := List.mem_of_mem_filter hx
      simp only [beq_iff_eq] at hx1
      simpa using hall x hx2 hx1
    constructor
    · exact add_model_not_found _ id2 pid2 model_name d2 c2 hf2
    · intro heq
      have := congrArg Model.project_id heq
      rw [add_model_fst_project_id] at this
      exact hne this

/-- Concrete instantiation of C2: re-creating `net` under project `p1`
returns the existing row untouched; creating `net` under project `p2`
inserts a distinct second row. -/
theorem C2_witness :
    add_model { projects := [], models := [⟨"m1", "p1", "net", none⟩], experiments := [] }
        "m2" "p1" "net" none true =
      (⟨"m1", "p1", "net", none⟩,
        { projects := [], models := [⟨"m1", "p1", "net", none⟩], experiments := [] }) ∧
    add_model (add_model { projects := [], models := [], experiments := [] }
        "m1" "p1" "net" none true).2 "m2" "p2" "net" none true =
      (⟨"m2", "p2", "net", none⟩,
        { (add_model { projects := [], models := [], experiments := [] }
            "m1" "p1" "net" none true).2 with
          models := (add_model { projects := [], models := [], experiments := [] }
            "m1" "p1" "net" none true).2.models ++ [⟨"m2", "p2", "net", none⟩] }) := by
  constructor
  · exact (C2_add_model_idempotent_by_project_and_name
      { projects := [], models := [⟨"m1", "p1", "net", none⟩], experiments := [] }
      "m2" "m3" "p1" "p2" "net" none none true true).1 ⟨"m1", "p1", "net", none⟩ (by decide)
  · exact ((C2_add_model_idempotent_by_project_and_name
      { projects := [], models := [], experiments := [] }
      "m1" "m2" "p1" "p2" "net" none none true true).2.2.2 (by decide) (by decide)).1

/-! ## C3: add_experiment always inserts a new row -/

/-- C3: `add_experiment` performs no idempotency lookup: on every store it
appends one fresh row carrying the generated identifier and returns it;
a second call with identical field values (and the next generated
identifier) appends a second row, and since generated identifiers are
distinct the two rows have distinct `experiment_id`s. -/
theorem C3_add_experiment_always_inserts (db : DB) (id1 id2 mv mid : String)
    (params : Option JsonMap) (td vd tsd : Option String) (ev afp : Option JsonMap)
    (c1 c2 : Bool) :
    add_experiment db id1 mv mid params td vd tsd ev afp c1 =
      (⟨id1, mid, mv, params, td, vd, tsd, ev, afp⟩,
        { db with experiments :=
            db.experiments ++ [⟨id1, mid, mv, params, td, vd, tsd, ev, afp⟩] }) ∧
    (add_experiment (add_experiment db id1 mv mid params td vd tsd ev afp c1).2
        id2 mv mid params td vd tsd ev afp c2).2.experiments =
      db.experiments ++ [⟨id1, mid, mv, params, td, vd, tsd, ev, afp⟩,
        ⟨id2, mid, mv, params, td, vd, tsd, ev, afp⟩] ∧
    (id1 ≠ id2 →
      (add_experiment (add_experiment db id1 mv mid params td vd tsd ev afp c1).2
          id2 mv mid params td vd tsd ev afp c2).1.experiment_id ≠
        (add_experiment db id1 mv mid params td vd tsd ev afp c1).1.experiment_id) := by
  refine ⟨rfl, by simp [add_experiment], ?_⟩
  intro h hc
  exact h (by simpa [add_experiment] using hc.symm)

/-- Concrete instantiation of C3: from the empty store, two identical
creates with distinct generated identifiers yield two rows. -/
theorem C3_witness :
    (add_experiment (add_experiment { projects := [], models := [], experiments := [] }
        "e1" "v1" "m1" none none none none none none true).2
        "e2" "v1" "m1" none none none none none none true).2.experiments =
      [⟨"e1", "m1", "v1", none, none, none, none, none, none⟩,
        ⟨"e2", "m1", "v1", none, none, none, none, none, none⟩] ∧
    (add_experiment (add_experiment { projects := [], models := [], experiments := [] }
        "e1" "v1" "m1" none none none none none none true).2
        "e2" "v1" "m1" none none none none none none true).1.experiment_id ≠
      (add_experiment { projects := [], models := [], experiments := [] }
        "e1" "v1" "m1" none none none none none none true).1.experiment_id := by
  constructor
  · exact (C3_add_experiment_always_inserts { projects := [], models := [], experiments := [] }
      "e1" "e2" "v1" "m1" none none none none none none true true).2.1
  · exact (C3_add_experiment_always_inserts { projects := [], models := [], experiments := [] }
      "e1" "e2" "v1" "m1" none none none none none none true true).2.2 (by decide)

/-! ## C5: update_experiment_* on a missing experiment fails, store unchanged -/

/-- C5: for an `experiment_id` not present in the store, both update
operations fail with the Not-Found error (the Python code dereferences
the absent record and raises) and the store is returned unchanged: no
experiment row is created or modified. -/
theorem C5_update_missing_experiment_fails (db : DB) (eid : String) (ev afp : JsonMap)
    (h : select_experiment_by_id db eid = none) :
    update_experiment_evaluation db eid ev = (Except.error DbError.notFound, db) ∧
    update_experiment_artifact_file_paths db eid afp = (Except.error DbError.notFound, db) := by
  constructor
  · simp [update_experiment_evaluation, h]
  · simp [update_experiment_artifact_file_paths, h]

/-- Concrete instantiation of C5: updating an experiment in the empty
store fails with Not-Found and leaves the store empty. -/
theorem C5_witness :
    update_experiment_evaluation { projects := [], models := [], experiments := [] }
        "e1" [("accuracy", JsonValue.str "0.9")] =
      (Except.error DbError.notFound, { projects := [], models := [], experiments := [] }) ∧
    update_experiment_artifact_file_paths { projects := [], models := [], experiments := [] }
        "e1" [("model", JsonValue.str "a.onnx")] =
      (Except.error DbError.notFound, { projects := [], models := [], experiments := [] }) :=
  C5_update_missing_experiment_fails { projects := [], models := [], experiments := [] }
    "e1" [("accuracy", JsonValue.str "0.9")] [("model", JsonValue.str "a.onnx")] (by decide)

/-! ## C6: select_model_by_project_name on an unknown project name -/

/-- C6 counterexample: on the empty store the claimed behaviour — return
the empty sequence — does not occur: `select_model_by_project_name`
fails (the Python code raises on `None.project_id`). -/
theorem C6_counterexample :
    select_model_by_project_name { projects := [], models := [], experiments := [] } "proj"
      ≠ Except.ok [] := by
  simp [select_model_by_project_name, select_project_by_name]

/-- C6 (amended): when no project has the name, the call fails with the
dereference error rather than returning an empty sequence; when the
project exists, it returns exactly the models whose `project_id` equals
that project's id. -/
theorem C6_select_model_by_project_name_amended (db : DB) (project_name : String) :
    (select_project_by_name db project_name = none →
        select_model_by_project_name db project_name = Except.error DbError.notFound) ∧
    (∀ p, select_project_by_name db project_name = some p →
        select_model_by_project_name db project_name =
          Except.ok (db.models.filter (fun m => m.project_id == p.project_id))) := by
  constructor
  · intro h
    simp [select_model_by_project_name, h]
  · intro p hp
    simp [select_model_by_project_name, hp]

/-- Concrete instantiation of C6 (amended): failure on the empty store,
and the filtered model list when the project exists. -/
theorem C6_witness :
    select_model_by_project_name { projects := [], models := [], experiments := [] } "proj" =
      Except.error DbError.notFound ∧
    select_model_by_project_name
        { projects := [⟨"p1", "proj2", none⟩],
          models := [⟨"m1", "p1", "net", none⟩, ⟨"m2", "p9", "net", none⟩],
          experiments := [] } "proj2" =
      Except.ok [⟨"m1", "p1", "net", none⟩] := by
  constructor
  · exact (C6_select_model_by_project_name_amended
      { projects := [], models := [], experiments := [] } "proj").1 (by decide)
  · have h := (C6_select_model_by_project_name_amended
      { projects := [⟨"p1", "proj2", none⟩],
        models := [⟨"m1", "p1", "net", none⟩, ⟨"m2", "p9", "net", none⟩],
        experiments := [] } "proj2").2 ⟨"p1", "proj2", none⟩ (by decide)
    rw [h]
    rfl

/-! ## C8: the experiments-of-a-project join -/

/-- C8: `select_experiment_by_project_id db p` contains a pair `(e, m)`
exactly when `e` is a stored experiment, `m` is a stored model,
`m.project_id = p`, and `e.model_id = m.model_id` — every experiment of a
model of the project appears paired with that owning model, and no other
pair appears. -/
theorem C8_select_experiment_by_project_id_join (db : DB) (pid : String)
    (e : Experiment) (m : Model) :
    (e, m) ∈ select_experiment_by_project_id db pid ↔
      e ∈ db.experiments ∧ m ∈ db.models ∧ m.project_id = pid ∧
        e.model_id = m.model_id := by
  simp only [select_experiment_by_project_id, List.mem_filter, List.mem_flatMap,
    List.mem_map, Bool.and_eq_true, beq_iff_eq, Prod.mk.injEq]
  constructor
  · rintro ⟨⟨e2, he2, m2, hm2, he, hm⟩, hp, hmatch⟩
    subst he
    subst hm
    exact ⟨he2, hm2, hp, hmatch⟩
  · rintro ⟨he, hm, hp, hmatch⟩
    exact ⟨⟨e, he, m, hm, rfl, rfl⟩, hp, hmatch⟩

/-! ## C9: the two Unit-of-Work acquisition styles agree -/

/-- C9: `get_db` and `get_context_db` are behaviorally equivalent: for
every body outcome they perform the same session events and propagate the
same outcome; an escaping error is preceded by a rollback and re-raised,
a normal exit performs no rollback, and in both cases the session is
closed exactly once. -/
theorem C9_get_db_equiv_get_context_db {ε α : Type} (body : Except ε α) :
    get_db body = get_context_db body ∧
    (∀ e, body = Except.error e →
        get_db body = (Except.error e, [SessionEvent.rollback, SessionEvent.close])) ∧
    (∀ a, body = Except.ok a →
        get_db body = (Except.ok a, [SessionEvent.close])) ∧
    (get_db body).2.count SessionEvent.close = 1 := by
  rcases body with e | a
  · refine ⟨rfl, ?_, ?_, ?_⟩
    · intro e2 he
      rw [he]
      rfl
    · intro a ha
      exact absurd ha (by simp)
    · simp [get_db, List.count_cons]
  · refine ⟨rfl, ?_, ?_, ?_⟩
    · intro e2 he
      exact absurd he (by simp)
    · intro a2 ha
      rw [ha]
      rfl
    · simp [get_db, List.count_cons]

/-- Concrete instantiation of C9: an error escaping the scope is
re-raised after a rollback, and the session closed once. -/
theorem C9_witness :
    get_db (Except.error DbError.notFound : Except DbError Nat) =
      (Except.error DbError.notFound, [SessionEvent.rollback, SessionEvent.close]) :=
  (C9_get_db_equiv_get_context_db
    (Except.error DbError.notFound : Except DbError Nat)).2.1 DbError.notFound rfl

/-! ## C10: no parent-existence check in the creation operations -/

/-- C10: the creation operations check no foreign key at this layer: on a
referentially valid store holding no project `pid`, `add_model` still
inserts and returns a new model referencing `pid`; `add_experiment`
inserts a row referencing `model_id` even when no model with that id
exists. -/
theorem C10_no_parent_existence_check (db : DB) (mid pid mname : String)
    (d : Option String) (c c2 : Bool) (eid mvid emid : String)
    (params : Option JsonMap) (td vd tsd : Option String) (ev afp : Option JsonMap)
    (hp : ∀ p ∈ db.projects, p.project_id ≠ pid)
    (href : ∀ m ∈ db.models, ∃ p ∈ db.projects, m.project_id = p.project_id)
    (hnm : ∀ m ∈ db.models, m.model_id ≠ emid) :
    add_model db mid pid mname d c =
      (⟨mid, pid, mname, d⟩,
        { db with models := db.models ++ [⟨mid, pid, mname, d⟩] }) ∧
    add_experiment db eid mvid emid params td vd tsd ev afp c2 =
      (⟨eid, emid, mvid, params, td, vd, tsd, ev, afp⟩,
        { db with experiments :=
            db.experiments ++ [⟨eid, emid, mvid, params, td, vd, tsd, ev, afp⟩] }) := by
  constructor
  · apply add_model_not_found
    apply List.find?_eq_none.mpr
    intro x hx
    have hx1 := List.of_mem_filter hx
    have hx2 := List.mem_of_mem_filter hx
    simp only [beq_iff_eq] at hx1
    obtain ⟨p, hpmem, hpid⟩ := href x hx2
    exact absurd (hpid ▸ hx1) (hp p hpmem)
  · rfl

/-- Concrete instantiation of C10: the store holds one project `p1` with
one model; creating a model under the absent project `p9` and an
experiment under the absent model `m9` both insert. -/
theorem C10_witness :
    add_model ⟨[⟨"p1", "proj", none⟩], [⟨"m1", "p1", "net", none⟩], []⟩
        "m2" "p9" "net" none true =
      (⟨"m2", "p9", "net", none⟩,
        ⟨[⟨"p1", "proj", none⟩],
          [⟨"m1", "p1", "net", none⟩, ⟨"m2", "p9", "net", none⟩], []⟩) ∧
    add_experiment ⟨[⟨"p1", "proj", none⟩], [⟨"m1", "p1", "net", none⟩], []⟩
        "e1" "v1" "m9" none none none none none none true =
      (⟨"e1", "m9", "v1", none, none, none, none, none, none⟩,
        ⟨[⟨"p1", "proj", none⟩], [⟨"m1", "p1", "net", none⟩],
          [⟨"e1", "m9", "v1", none, none, none, none, none, none⟩]⟩) := by
  have h := C10_no_parent_existence_check
    ⟨[⟨"p1", "proj", none⟩], [⟨"m1", "p1", "net", none⟩], []⟩
    "m2" "p9" "net" none true true "e1" "v1" "m9" none none none none none none
    (by decide) (by decide) (by decide)
  exact h

/-! ## C4: merge-update semantics of the experiment JSON fields -/

theorem dictLookup_cons (kv : String × JsonValue) (d : JsonMap) (k : String) :
    dictLookup (kv :: d) k = if kv.1 == k then some kv.2 else dictLookup d k := by
  cases h : kv.1 == k <;> simp [dictLookup, List.find?_cons, h]

/-- Unfolding of one step of the Python update loop. -/
theorem dictMerge_cons (cur : JsonMap) (kv : String × JsonValue) (rest : JsonMap) :
    dictMerge cur (kv :: rest) = dictMerge (dictUpdate cur kv.1 kv.2) rest := rfl

theorem find?_update_map (d : JsonMap) (k : String) (v : JsonValue)
    (h : d.any (fun kv => kv.1 == k) = true) :
    (d.map (fun kv => if kv.1 == k then (k, v) else kv)).find? (fun kv => kv.1 == k)
      = some (k, v) := by
  induction d with
  | nil => simp at h
  | cons kv rest ih =>
    rw [List.map_cons]
    cases hk : (kv.1 == k) with
    | true =>
      rw [List.find?_cons_of_pos _ (by simp)]
      rfl
    | false =>
      simp only [List.any_cons, hk, Bool.false_or] at h
      rw [List.find?_cons_of_neg _ (by simp [hk])]
      exact ih h

theorem find?_update_map_other (d : JsonMap) (a k : String) (v : JsonValue)
    (hne : k ≠ a) :
    (d.map (fun kv => if kv.1 == a then (a, v) else kv)).find? (fun kv => kv.1 == k)
      = d.find? (fun kv => kv.1 == k) := by
  induction d with
  | nil => simp
  | cons kv rest ih =>
    rw [List.map_cons]
    cases ha : (kv.1 == a) with
    | true =>
      have hk : (kv.1 == k) = false := by
        rw [beq_iff_eq] at ha
        subst ha
        exact beq_eq_false_iff_ne.mpr (fun hc => hne hc.symm)
      have hak : (a == k) = false := beq_eq_false_iff_ne.mpr (fun hc => hne hc.symm)
      rw [List.find?_cons_of_neg _ (by simp [hak]),
        List.find?_cons_of_neg _ (by simp [hk])]
      exact ih
    | false =>
      cases hk : (kv.1 == k) with
      | true =>
        rw [List.find?_cons_of_pos _ (by simp [hk]), List.find?_cons_of_pos _ (by simp [hk])]
        rfl
      | false =>
        rw [List.find?_cons_of_neg _ (by simp [hk]), List.find?_cons_of_neg _ (by simp [hk])]
        exact ih

/-- Python `d[k] = v` makes `k` map to `v`. -/
theorem dictLookup_dictUpdate_self (d : JsonMap) (k : String) (v : JsonValue) :
    dictLookup (dictUpdate d k v) k = some v := by
  rw [dictLookup, dictUpdate]
  split
  next h =>
    rw [find?_update_map d k v h]
    rfl
  next h =>
    have hnone : d.find? (fun kv => kv.1 == k) = none := by
      apply List.find?_eq_none.mpr
      intro x hx hxk
      exact h (List.any_eq_true.mpr ⟨x, hx, hxk⟩)
    rw [List.find?_append, hnone]
    simp

/-- Python `d[a] = v` leaves every other key unchanged. -/
theorem dictLookup_dictUpdate_other (d : JsonMap) (a k : String) (v : JsonValue)
    (hne : k ≠ a) :
    dictLookup (dictUpdate d a v) k = dictLookup d k := by
  rw [dictLookup, dictLookup, dictUpdate]
  split
  next h =>
    rw [find?_update_map_other d a k v hne]
  next h =>
    rw [List.find?_append]
    have hs : ([(a, v)].find? (fun kv => kv.1 == k)) = none := by
      simp [beq_eq_false_iff_ne.mpr (fun hc => hne hc.symm)]
    rw [hs]
    simp

theorem dictLookup_eq_none_of_keys (d : JsonMap) (k : String)
    (h : ∀ kv ∈ d, kv.1 ≠ k) : dictLookup d k = none := by
  rw [dictLookup]
  rw [List.find?_eq_none.mpr]
  · rfl
  · intro x hx
    simpa using h x hx

/-- The update loop realises the merge: an input key maps to its input
value, every other key keeps its current value (keys absent from both
stay absent). -/
theorem dictMerge_dictLookup (cur upd : JsonMap)
    (hnd : (upd.map Prod.fst).Nodup) (k : String) :
    dictLookup (dictMerge cur upd) k =
      match dictLookup upd k with
      | some v => some v
      | none => dictLookup cur k := by
  induction upd generalizing cur with
  | nil => simp [dictMerge, dictLookup]
  | cons kv rest ih =>
    simp only [List.map_cons, List.nodup_cons, List.mem_map] at hnd
    rw [dictMerge_cons, ih (dictUpdate cur kv.1 kv.2) hnd.2, dictLookup_cons]
    by_cases hk : kv.1 = k
    · subst hk
      have hrest : dictLookup rest kv.1 = none := by
        apply dictLookup_eq_none_of_keys
        intro kv2 hkv2 hc
        exact hnd.1 ⟨kv2, hkv2, hc⟩
      simp [hrest, dictLookup_dictUpdate_self]
    · have hbk : (kv.1 == k) = false := beq_eq_false_iff_ne.mpr hk
      rw [hbk]
      simp only [Bool.false_eq_true, if_false]
      rcases hr : dictLookup rest k with _ | v
      · simpa using dictLookup_dictUpdate_other cur kv.1 k kv.2 (fun hc => hk hc.symm)
      · rfl

/-- The value the update operations store: the input wholesale when the
current field is unset, else the loop's merge. -/
def mergedField (cur : Option JsonMap) (upd : JsonMap) : JsonMap :=
  match cur with
  | none => upd
  | some c => dictMerge c upd

/-- The row as rewritten by `update_experiment_evaluation`. -/
def evalUpdatedRow (e : Experiment) (ev : JsonMap) : Experiment :=
  { e with evaluations := some (mergedField e.evaluations ev) }

/-- The row as rewritten by `update_experiment_artifact_file_paths`. -/
def afpUpdatedRow (e : Experiment) (afp : JsonMap) : Experiment :=
  { e with artifact_file_paths := some (mergedField e.artifact_file_paths afp) }

/-- Reduction of `update_experiment_evaluation` when the experiment is
present: the Python code mutates the fetched row and commits it. -/
theorem update_experiment_evaluation_found (db : DB) (eid : String) (ev : JsonMap)
    (e : Experiment) (h : select_experiment_by_id db eid = some e) :
    update_experiment_evaluation db eid ev =
      (Except.ok (evalUpdatedRow e ev),
        { db with experiments :=
            updateFirstExperiment db.experiments eid (evalUpdatedRow e ev) }) := by
  simp only [update_experiment_evaluation, h, evalUpdatedRow, mergedField]

/-- Reduction of `update_experiment_artifact_file_paths` when the
experiment is present. -/
theorem update_experiment_artifact_file_paths_found (db : DB) (eid : String)
    (afp : JsonMap) (e : Experiment) (h : select_experiment_by_id db eid = some e) :
    update_experiment_artifact_file_paths db eid afp =
      (Except.ok (afpUpdatedRow e afp),
        { db with experiments :=
            updateFirstExperiment db.experiments eid (afpUpdatedRow e afp) }) := by
  simp only [update_experiment_artifact_file_paths, h, afpUpdatedRow, mergedField]

/-- C4: for a stored experiment, `update_experiment_evaluation` replaces
an unset `evaluations` wholesale with the input and otherwise merges key
by key (input keys overwrite, other existing keys are retained, no other
key appears); every other field of the row is unchanged, and only that
row of the store is rewritten.  `update_experiment_artifact_file_paths`
does the same for `artifact_file_paths`. -/
theorem C4_update_merge_semantics (db : DB) (eid : String) (ev afp : JsonMap)
    (e : Experiment) (hsel : select_experiment_by_id db eid = some e)
    (hev : (ev.map Prod.fst).Nodup) (hafp : (afp.map Prod.fst).Nodup) :
    (∃ e2, update_experiment_evaluation db eid ev =
        (Except.ok e2,
          { db with experiments := updateFirstExperiment db.experiments eid e2 }) ∧
      (e.evaluations = none → e2.evaluations = some ev) ∧
      (∀ cur, e.evaluations = some cur → ∃ merged, e2.evaluations = some merged ∧
        ∀ k, dictLookup merged k =
          match dictLookup ev k with
          | some v => some v
          | none => dictLookup cur k) ∧
      e2.experiment_id = e.experiment_id ∧
      e2.model_id = e.model_id ∧
      e2.model_version_id = e.model_version_id ∧
      e2.parameters = e.parameters ∧
      e2.training_dataset = e.training_dataset ∧
      e2.validation_dataset = e.validation_dataset ∧
      e2.test_dataset = e.test_dataset ∧
      e2.artifact_file_paths = e.artifact_file_paths) ∧
    (∃ e2, update_experiment_artifact_file_paths db eid afp =
        (Except.ok e2,
          { db with experiments := updateFirstExperiment db.experiments eid e2 }) ∧
      (e.artifact_file_paths = none → e2.artifact_file_paths = some afp) ∧
      (∀ cur, e.artifact_file_paths = some cur →
        ∃ merged, e2.artifact_file_paths = some merged ∧
        ∀ k, dictLookup merged k =
          match dictLookup afp k with
          | some v => some v
          | none => dictLookup cur k) ∧
      e2.experiment_id = e.experiment_id ∧
      e2.model_id = e.model_id ∧
      e2.model_version_id = e.model_version_id ∧
      e2.parameters = e.parameters ∧
      e2.training_dataset = e.training_dataset ∧
      e2.validation_dataset = e.validation_dataset ∧
      e2.test_dataset = e.test_dataset ∧
      e2.evaluations = e.evaluations) := by
  constructor
  · refine ⟨_, update_experiment_evaluation_found db eid ev e hsel,
      ?_, ?_, rfl, rfl, rfl, rfl, rfl, rfl, rfl, rfl⟩
    · intro h0
      simp [evalUpdatedRow, mergedField, h0]
    · intro cur hc
      refine ⟨dictMerge cur ev, ?_, fun k => dictMerge_dictLookup cur ev hev k⟩
      simp [evalUpdatedRow, mergedField, hc]
  · refine ⟨_, update_experiment_artifact_file_paths_found db eid afp e hsel,
      ?_, ?_, rfl, rfl, rfl, rfl, rfl, rfl, rfl, rfl⟩
    · intro h0
      simp [afpUpdatedRow, mergedField, h0]
    · intro cur hc
      refine ⟨dictMerge cur afp, ?_, fun k => dictMerge_dictLookup cur afp hafp k⟩
      simp [afpUpdatedRow, mergedField, hc]

/-- The experiment of the C4 witness store: `evaluations` holds one
metric `accuracy`. -/
def expC4 : Experiment :=
  ⟨"e1", "m1", "v1", none, none, none, none,
    some [("accuracy", JsonValue.str "0.9")], none⟩

/-- The C4 witness store. -/
def dbC4 : DB := ⟨[], [], [expC4]⟩

/-- Concrete instantiation of C4: merging `f1` into an existing
`accuracy` map retains `accuracy` and adds `f1`. -/
theorem C4_witness : ∃ e2,
    update_experiment_evaluation dbC4 "e1" [("f1", JsonValue.str "0.8")] =
      (Except.ok e2,
        { dbC4 with experiments := updateFirstExperiment dbC4.experiments "e1" e2 }) ∧
    ∃ merged, e2.evaluations = some merged ∧
      dictLookup merged "accuracy" = some (JsonValue.str "0.9") ∧
      dictLookup merged "f1" = some (JsonValue.str "0.8") := by
  obtain ⟨⟨e2, heq, hnone, hsome, -⟩, -⟩ := C4_update_merge_semantics dbC4 "e1"
    [("f1", JsonValue.str "0.8")] [] expC4 (by decide) (by decide) (by decide)
  obtain ⟨merged, hm, hlook⟩ := hsome [("accuracy", JsonValue.str "0.9")] rfl
  refine ⟨e2, heq, merged, hm, ?_, ?_⟩
  · exact (hlook "accuracy").trans (by rfl)
  · exact (hlook "f1").trans (by rfl)

/-! ## C7: name-uniqueness is an invariant of the core -/

/-- No two stored projects share a `project_name`. -/
def projectNamesUnique (db : DB) : Prop :=
  db.projects.Pairwise (fun p q => p.project_name ≠ q.project_name)

/-- No two stored models of one project share a `model_name`. -/
def modelNamesUniquePerProject (db : DB) : Prop :=
  db.models.Pairwise (fun m1 m2 => m1.project_id ≠ m2.project_id ∨ m1.model_name ≠ m2.model_name)

/-- The name-uniqueness invariant of §3 of the spec. -/
def namesInvariant (db : DB) : Prop :=
  projectNamesUnique db ∧ modelNamesUniquePerProject db

/-- One invocation of a mutating repository operation (single-caller
model). -/
inductive DbStep : DB → DB → Prop where
  | add_project_step : ∀ db newId project_name description commit,
      DbStep db (add_project db newId project_name description commit).2
  | add_model_step : ∀ db newId project_id model_name description commit,
      DbStep db (add_model db newId project_id model_name description commit).2
  | add_experiment_step : ∀ db newId model_version_id model_id parameters
        training_dataset validation_dataset test_dataset evaluations
        artifact_file_paths commit,
      DbStep db (add_experiment db newId model_version_id model_id parameters
        training_dataset validation_dataset test_dataset evaluations
        artifact_file_paths commit).2
  | update_evaluation_step : ∀ db experiment_id evaluations,
      DbStep db (update_experiment_evaluation db experiment_id evaluations).2
  | update_artifact_step : ∀ db experiment_id artifact_file_paths,
      DbStep db (update_experiment_artifact_file_paths db experiment_id
        artifact_file_paths).2

/-- States reachable through the repository operations. -/
inductive DbReachable : DB → DB → Prop where
  | refl : ∀ db, DbReachable db db
  | step : ∀ db1 db2 db3, DbReachable db1 db2 → DbStep db2 db3 → DbReachable db1 db3

theorem namesInvariant_add_project (db : DB) (newId project_name : String)
    (d : Option String) (c : Bool) (h : namesInvariant db) :
    namesInvariant (add_project db newId project_name d c).2 := by
  rcases hsel : select_project_by_name db project_name with _ | p
  · have hnone := (select_project_by_name_eq_none_iff db project_name).mp hsel
    simp only [add_project, hsel]
    refine ⟨?_, h.2⟩
    rw [projectNamesUnique, List.pairwise_append]
    refine ⟨h.1, by simp, ?_⟩
    intro a ha b hb
    simp only [List.mem_singleton] at hb
    subst hb
    exact hnone a ha
  · simp only [add_project, hsel]
    exact h

theorem namesInvariant_add_model (db : DB) (newId pid model_name : String)
    (d : Option String) (c : Bool) (h : namesInvariant db) :
    namesInvariant (add_model db newId pid model_name d c).2 := by
  rcases hf : (select_model_by_project_id db pid).find?
      (fun q => q.model_name == model_name) with _ | m
  · rw [add_model_not_found db newId pid model_name d c hf]
    refine ⟨h.1, ?_⟩
    rw [modelNamesUniquePerProject, List.pairwise_append]
    refine ⟨h.2, by simp, ?_⟩
    intro a ha b hb
    simp only [List.mem_singleton] at hb
    subst hb
    by_cases hpid : a.project_id = pid
    · right
      intro hname
      have hmem : a ∈ select_model_by_project_id db pid := by
        simp [select_model_by_project_id, List.mem_filter, ha, hpid]
      have := List.find?_eq_none.mp hf a hmem
      simp [hname] at this
    · left
      exact hpid
  · rw [add_model_found db newId pid model_name d c m hf]
    exact h

theorem namesInvariant_add_experiment (db : DB) (newId mv mid : String)
    (params : Option JsonMap) (td vd tsd : Option String) (ev afp : Option JsonMap)
    (c : Bool) (h : namesInvariant db) :
    namesInvariant (add_experiment db newId mv mid params td vd tsd ev afp c).2 :=
  h

theorem namesInvariant_update_evaluation (db : DB) (eid : String) (ev : JsonMap)
    (h : namesInvariant db) :
    namesInvariant (update_experiment_evaluation db eid ev).2 := by
  rcases hsel : select_experiment_by_id db eid with _ | e
  · simp only [update_experiment_evaluation, hsel]
    exact h
  · simp only [update_experiment_evaluation, hsel]
    exact h

theorem namesInvariant_update_artifact (db : DB) (eid : String) (afp : JsonMap)
    (h : namesInvariant db) :
    namesInvariant (update_experiment_artifact_file_paths db eid afp).2 := by
  rcases hsel : select_experiment_by_id db eid with _ | e
  · simp only [update_experiment_artifact_file_paths, hsel]
    exact h
  · simp only [update_experiment_artifact_file_paths, hsel]
    exact h

/-- C7: name-uniqueness of project names and of model names within a
project is preserved by every repository operation: it holds in every
store reachable from a store satisfying it — in particular `add_project`
never inserts a second row with an existing `project_name` and
`add_model` never inserts a second row with an existing
`(project_id, model_name)` pair. -/
theorem C7_name_uniqueness_invariant (db0 db : DB) (h0 : namesInvariant db0)
    (hr : DbReachable db0 db) : namesInvariant db := by
  induction hr with
  | refl => exact h0
  | step db2 db3 hr12 hstep ih =>
      cases hstep with
      | add_project_step newId pn d c =>
          exact namesInvariant_add_project db2 newId pn d c ih
      | add_model_step newId pid mn d c =>
          exact namesInvariant_add_model db2 newId pid mn d c ih
      | add_experiment_step newId mv mid params td vd tsd ev afp c =>
          exact namesInvariant_add_experiment db2 newId mv mid params td vd tsd ev afp c ih
      | update_evaluation_step eid ev =>
          exact namesInvariant_update_evaluation db2 eid ev ih
      | update_artifact_step eid afp =>
          exact namesInvariant_update_artifact db2 eid afp ih

/-- Concrete instantiation of C7: two creates from the empty store leave
the invariant intact. -/
theorem C7_witness :
    namesInvariant (add_model (add_project ⟨[], [], []⟩ "p1" "proj" none true).2
      "m1" "p1" "net" none true).2 :=
  C7_name_uniqueness_invariant ⟨[], [], []⟩ _
    ⟨List.Pairwise.nil, List.Pairwise.nil⟩
    (DbReachable.step _ _ _
      (DbReachable.step _ _ _ (DbReachable.refl _)
        (DbStep.add_project_step _ "p1" "proj" none true))
      (DbStep.add_model_step _ "m1" "p1" "net" none true))

end ModelDB
